import Mathlib

/-!
# Verification of the study-assistant RAG pipeline (`server/routes/study.ts`)

A shallow embedding of the document chunker, rate limiter, hybrid retrieval
SQL functions and the `/api/study/chat` and `/api/study/ingest` handlers of
the repository, together with proofs of the spec's testable properties.

Strings are modelled as `List Char`; a "word" is a list of characters.
JavaScript whitespace is modelled by the common ASCII whitespace characters
(space, tab, newline, carriage return, vertical tab, form feed), which covers
every input the proofs and counterexamples use.
-/

namespace Study

attribute [local semireducible] Rat.mul Rat.add Rat.sub Rat.inv

/-- The word type: the chunker works on whitespace-separated tokens. -/
abbrev Word := List Char

-- ─── Constants (from `server/routes/study.ts`) ───────────────

def CHUNK_TARGET_WORDS : Nat := 400
def CHUNK_MAX_WORDS : Nat := 600
def CHUNK_OVERLAP_WORDS : Nat := 60
def SIMILARITY_THRESHOLD : ℚ := 3 / 10
def MAX_CHUNKS_TO_LLM : Nat := 5
def CHAT_HISTORY_TURNS : Nat := 5
def DAILY_QUERY_LIMIT : Nat := 50
def MAX_QUESTION_LENGTH : Nat := 2000

-- ─── JavaScript string primitives ────────────────────────────

/-- ASCII model of the JavaScript `\s` character class. -/
def jsWhitespace (c : Char) : Bool :=
  c == ' ' || c == '\t' || c == '\n' || c == '\r' ||
  c == Char.ofNat 11 || c == Char.ofNat 12

/-- `String.prototype.trim`. -/
def jsTrim (s : List Char) : List Char :=
  ((s.dropWhile jsWhitespace).reverse.dropWhile jsWhitespace).reverse

/-- Scanner for `str.split(/\s+/)`: `acc` holds the current segment reversed,
`pend` records whether we are inside a whitespace run (a pending separator). -/
def wsScan : List Char → List Char → Bool → List Word
  | [], acc, pend => if pend then [acc.reverse, []] else [acc.reverse]
  | c :: rest, acc, pend =>
    if jsWhitespace c then wsScan rest acc true
    else if pend then acc.reverse :: wsScan rest [c] false
    else wsScan rest (c :: acc) false

/-- `str.split(/\s+/)` as used on the (trimmed, non-empty) paragraphs. -/
def splitWs (s : List Char) : List Word := wsScan s [] false

/-- Does `l` begin with one to three `#` characters followed by whitespace
(the `^#{1,3}\s` heading marker of the paragraph-splitting regex)? -/
def isHeadingStart (l : List Char) : Bool :=
  match l with
  | '#' :: t =>
    match t with
    | '#' :: t2 =>
      match t2 with
      | '#' :: t3 =>
        match t3 with
        | c :: _ => jsWhitespace c
        | [] => false
      | c :: _ => jsWhitespace c
      | [] => false
    | c :: _ => jsWhitespace c
    | [] => false
  | _ => false

/-- Scanner for `text.split(/\n{2,}|(?=^#{1,3}\s)/m)`.

`acc` is the current segment (reversed); `nl` counts the newline characters
seen immediately before the current position but not yet committed.  A run of
two or more newlines is a consuming separator; a heading marker at a line
start is a zero-width split point, which JavaScript skips when it sits at the
start of the current segment (hence the `nl = 1` guard: right after a
separator the segment is still empty and the split is skipped). -/
def paraScan : List Char → List Char → Nat → List (List Char)
  | [], acc, nl =>
    if 2 ≤ nl then [acc.reverse, []]
    else [(if nl = 1 then '\n' :: acc else acc).reverse]
  | c :: rest, acc, nl =>
    if c = '\n' then paraScan rest acc (nl + 1)
    else if 2 ≤ nl then acc.reverse :: paraScan rest [c] 0
    else
      let acc' := if nl = 1 then '\n' :: acc else acc
      if nl = 1 ∧ isHeadingStart (c :: rest) then
        acc'.reverse :: paraScan rest [c] 0
      else paraScan rest (c :: acc') 0

/-- `text.split(/\n{2,}|(?=^#{1,3}\s)/m)`. -/
def splitParagraphs (s : List Char) : List (List Char) := paraScan s [] 0

/-- The kept paragraphs: split, trim, keep those longer than 10 characters. -/
def paragraphsOf (text : List Char) : List (List Char) :=
  ((splitParagraphs text).map jsTrim).filter (fun p => 10 < p.length)

/-- `arr.slice(-n)`: the trailing `n` elements (all of them when shorter). -/
def lastN (n : Nat) (l : List α) : List α := l.drop (l.length - n)

-- ─── The chunker (`splitIntoChunks`, study.ts lines 581–619) ─

/-- State of the accumulation loop: flushed chunks (as word lists) and the
running passage `cur`. -/
structure ChunkState where
  chunks : List (List Word)
  cur : List Word
deriving Repr, DecidableEq

/-- Second half of a loop iteration: append the paragraph words and flush
once the target size is reached. -/
def flushTarget (s1 : ChunkState) (pw : List Word) : ChunkState :=
  if CHUNK_TARGET_WORDS ≤ (s1.cur ++ pw).length then
    ChunkState.mk (s1.chunks ++ [s1.cur ++ pw]) (lastN CHUNK_OVERLAP_WORDS (s1.cur ++ pw))
  else ChunkState.mk s1.chunks (s1.cur ++ pw)

/-- One iteration of the `for (const para of paragraphs)` loop, on the
paragraph's word list. -/
def chunkStepW (s : ChunkState) (pw : List Word) : ChunkState :=
  flushTarget
    (if s.cur ≠ [] ∧ CHUNK_MAX_WORDS < s.cur.length + pw.length then
      ChunkState.mk (s.chunks ++ [s.cur]) (lastN CHUNK_OVERLAP_WORDS s.cur)
    else s) pw

/-- One iteration of the `for (const para of paragraphs)` loop. -/
def chunkStep (s : ChunkState) (para : List Char) : ChunkState :=
  chunkStepW s (splitWs para)

/-- The whole paragraph loop. -/
def chunkLoop (ps : List (List Char)) : ChunkState :=
  ps.foldl chunkStep (ChunkState.mk [] [])

/-- `splitIntoChunks` at the word level: the final remainder is kept only
when it has more than 20 words. -/
def splitIntoChunksW (text : List Char) : List (List Word) :=
  let s := chunkLoop (paragraphsOf text)
  if 20 < s.cur.length then s.chunks ++ [s.cur] else s.chunks

/-- `words.join(" ")`. -/
def joinWords (ws : List Word) : List Char := List.intercalate [' '] ws

/-- `splitIntoChunks(text)` from `server/routes/study.ts`. -/
def splitIntoChunks (text : String) : List String :=
  (splitIntoChunksW text.data).map (fun ws => String.mk (joinWords ws))

-- ─── Overlap and coverage machinery for the chunker ──────────

/-- `b` begins with the trailing `CHUNK_OVERLAP_WORDS` words of the
(non-empty) previously flushed chunk `a`. -/
def ovRel (a b : List Word) : Prop :=
  lastN CHUNK_OVERLAP_WORDS a <+: b ∧ a ≠ []

/-- Strip a successor chunk's overlap seed: the first
`min CHUNK_OVERLAP_WORDS prev.length` words repeat the previous chunk. -/
def dropOv (prev c : List Word) : List Word :=
  c.drop (min CHUNK_OVERLAP_WORDS prev.length)

/-- Unique (non-overlap) content of the chunks following `prev`. -/
def uniqAux (prev : List Word) : List (List Word) → List Word
  | [] => []
  | c :: rest => dropOv prev c ++ uniqAux c rest

/-- Concatenation of all chunks' unique (non-overlap) content. -/
def uniqConcat : List (List Word) → List Word
  | [] => []
  | c :: rest => c ++ uniqAux c rest

/-- Relation between the running passage `cur`, the flushed chunks and the
words `ws` consumed so far: `cur` extends the last chunk's overlap seed and
the unique content plus `cur`'s own fresh words is exactly `ws`. -/
def Tail (chunks : List (List Word)) (cur ws : List Word) : Prop :=
  match chunks.getLast? with
  | none => cur = ws
  | some p =>
    lastN CHUNK_OVERLAP_WORDS p <+: cur ∧
      uniqConcat chunks ++ cur.drop (min CHUNK_OVERLAP_WORDS p.length) = ws

/-- Loop invariant, minus the size bound (which can be broken transiently
inside one iteration). -/
structure Mid (s : ChunkState) (ws : List Word) : Prop where
  nonempty : ∀ c ∈ s.chunks, c ≠ []
  chain : s.chunks.Chain' ovRel
  tail : Tail s.chunks s.cur ws

/-- Full loop invariant: once anything has been flushed, the running passage
carries at least a full overlap seed. -/
structure Inv (s : ChunkState) (ws : List Word) : Prop where
  mid : Mid s ws
  bound : s.chunks ≠ [] → CHUNK_OVERLAP_WORDS ≤ s.cur.length

-- ─── Concrete chunker inputs used by counterexamples/witnesses ─

/-- A one-word paragraph followed by a 600-word paragraph: the forced flush
emits the one-word passage as its own chunk. -/
def cexChunkText : List Char :=
  "aaaaaaaaaaaa".data ++ '\n' :: '\n' :: joinWords (List.replicate 600 ['a'])

/-- A single paragraph of 25 one-letter words. -/
def smallChunkText : List Char := joinWords (List.replicate 25 ['a'])

/-- A single paragraph of 11 one-letter words: below the final-remainder
cutoff, so the chunker emits nothing at all. -/
def elevenWordText : List Char := joinWords (List.replicate 11 ['a'])

-- ─── Usage meter / rate limiting (`checkRateLimit`) ──────────

/-- The usage window key: `new Date().toISOString().slice(0, 10)` is the
UTC calendar date; times are seconds since the epoch, dates are day numbers. -/
def windowKey (now : Nat) : Nat := now / 86400

/-- `now.getUTCHours()`. -/
def utcHour (now : Nat) : Nat := now % 86400 / 3600

/-- The reset time computed by `checkRateLimit`: copy `now`, advance the UTC
date by one keeping the time, then set the time to 16:00:00 UTC.  The final
`if (now.getUTCHours() >= 16) setUTCDate(getUTCDate())` in the source sets
the date to its current value, so both branches coincide. -/
def resetTimeOf (now : Nat) : Nat :=
  let r := (now / 86400 + 1) * 86400 + 16 * 3600
  if 16 ≤ utcHour now then r else r

/-- The calendar date of `now` in the reference timezone (UTC+8, Singapore). -/
def sgtDate (now : Nat) : Nat := (now + 8 * 3600) / 86400

/-- Modelled from the spec: the earliest strictly future instant at 16:00 UTC
(midnight in the UTC+8 reference timezone) — the reset boundary the spec
describes. -/
def specNextResetInstant (now : Nat) : Nat :=
  if now % 86400 < 16 * 3600 then now - now % 86400 + 16 * 3600
  else now - now % 86400 + 86400 + 16 * 3600

/-- Result of `checkRateLimit`. -/
structure RateLimitInfo where
  allowed : Bool
  queryCount : Nat
  resetTime : Nat
deriving Repr, DecidableEq

/-- `checkRateLimit` (study.ts lines 621–653): `usageRow` is the
`query_count` of the `api_usage` row for `(user, windowKey now)`, when one
exists. -/
def checkRateLimit (usageRow : Option Nat) (now : Nat) : RateLimitInfo :=
  let queryCount := usageRow.getD 0
  RateLimitInfo.mk (decide (queryCount < DAILY_QUERY_LIMIT)) queryCount (resetTimeOf now)

-- ─── Retrieval rows and scoring ──────────────────────────────

/-- A `document_chunks` row joined with its `documents` row; the pgvector
distance of its embedding to the query embedding and the full-text rank are
supplied as oracles `dist`/`tsMatch`/`tsRank` since the index internals are
outside the model. -/
structure DbChunk where
  id : String
  document_id : String
  content : String
  chunk_index : Nat
  module_name : Option String
  document_filename : Option String
  uploaded_by : String
deriving Repr, DecidableEq

/-- A row returned by either search RPC, as the handler sees it: fields the
old `match_documents` does not return are `none`. -/
structure MatchRow where
  id : String
  document_id : String
  content : String
  chunk_index : Nat
  similarity : Option ℚ
  fts_rank : Option ℚ
  combined_score : Option ℚ
  module_name : Option String
  document_filename : Option String
deriving Repr, DecidableEq

/-- JavaScript `a || b` on an optional number: falsy (absent or zero) falls
through to the default. -/
def numOr (o : Option ℚ) (d : ℚ) : ℚ :=
  match o with
  | some x => if x = 0 then d else x
  | none => d

/-- JavaScript `a || b` on an optional string: absent or empty falls through. -/
def strOr (o : Option String) (d : String) : String :=
  match o with
  | some s => if s = "" then d else s
  | none => d

/-- JavaScript `x || null` on an optional string-valued field. -/
def optStr (o : Option String) : Option String :=
  match o with
  | some s => if s = "" then none else some s
  | none => none

/-- `1 - (dc.embedding <=> query_embedding)`. -/
def simScore (dist : DbChunk → ℚ) (r : DbChunk) : ℚ := 1 - dist r

/-- The normalized lexical term `LEAST(ts_rank_cd(...) * 10, 1.0)`, zero when
no full-text query was supplied or the chunk does not match it. -/
def lexTerm (tsMatch : DbChunk → Bool) (tsRank : DbChunk → ℚ) (hasFts : Bool)
    (r : DbChunk) : ℚ :=
  if hasFts && tsMatch r then min (tsRank r * 10) 1 else 0

/-- The fused score `0.7 * cosine_similarity + 0.3 * normalized_lexical_rank`. -/
def combScore (dist : DbChunk → ℚ) (tsMatch : DbChunk → Bool)
    (tsRank : DbChunk → ℚ) (hasFts : Bool) (r : DbChunk) : ℚ :=
  7 / 10 * simScore dist r + 3 / 10 * lexTerm tsMatch tsRank hasFts r

/-- The `fts_rank` column of the hybrid function's output. -/
def ftsRankCol (tsMatch : DbChunk → Bool) (tsRank : DbChunk → ℚ) (hasFts : Bool)
    (r : DbChunk) : ℚ :=
  if hasFts && tsMatch r then tsRank r else 0

/-- The WHERE clause of `match_documents_hybrid`. -/
def hybridKeep (dist : DbChunk → ℚ) (similarity_threshold : ℚ)
    (filter_document_id filter_user_id filter_module : Option String)
    (r : DbChunk) : Bool :=
  (match filter_document_id with
   | none => true
   | some d => d == r.document_id) &&
  (match filter_user_id with
   | none => true
   | some u => u == r.uploaded_by) &&
  (match filter_module with
   | none => true
   | some m => r.module_name == some m) &&
  decide (similarity_threshold ≤ simScore dist r)

instance decRelLeOf (f : α → ℚ) : DecidableRel (fun a b : α => f a ≤ f b) :=
  fun a b => inferInstanceAs (Decidable (f a ≤ f b))

instance decRelGeOf (f : α → ℚ) : DecidableRel (fun a b : α => f b ≤ f a) :=
  fun a b => inferInstanceAs (Decidable (f b ≤ f a))

instance isTotalGeOf (f : α → ℚ) : IsTotal α (fun a b : α => f b ≤ f a) :=
  ⟨fun a b => le_total (f b) (f a)⟩

instance isTransGeOf (f : α → ℚ) : IsTrans α (fun a b : α => f b ≤ f a) :=
  ⟨fun _ _ _ h1 h2 => le_trans h2 h1⟩

/-- `query_text IS NOT NULL AND length(trim(query_text)) > 0` (the handler
always passes a string, never NULL). -/
def hasFtsQuery (query_text : String) : Bool :=
  decide (0 < (jsTrim query_text.data).length)

/-- The rows selected by `match_documents_hybrid` before projection:
filtered, ordered by combined score descending, capped at `match_count`. -/
def hybridSelected (dist : DbChunk → ℚ) (tsMatch : DbChunk → Bool)
    (tsRank : DbChunk → ℚ) (query_text : String) (match_count : Nat)
    (similarity_threshold : ℚ)
    (filter_document_id filter_user_id filter_module : Option String)
    (db : List DbChunk) : List DbChunk :=
  ((db.filter
      (hybridKeep dist similarity_threshold filter_document_id filter_user_id
        filter_module)).insertionSort
    (fun a b =>
      combScore dist tsMatch tsRank (hasFtsQuery query_text) b ≤
        combScore dist tsMatch tsRank (hasFtsQuery query_text) a)).take match_count

/-- The SQL function `match_documents_hybrid` (hybrid search migration). -/
def match_documents_hybrid (dist : DbChunk → ℚ) (tsMatch : DbChunk → Bool)
    (tsRank : DbChunk → ℚ) (query_text : String) (match_count : Nat)
    (similarity_threshold : ℚ)
    (filter_document_id filter_user_id filter_module : Option String)
    (db : List DbChunk) : List MatchRow :=
  (hybridSelected dist tsMatch tsRank query_text match_count
      similarity_threshold filter_document_id filter_user_id filter_module
      db).map
    (fun r =>
      MatchRow.mk r.id r.document_id r.content r.chunk_index
        (some (simScore dist r))
        (some (ftsRankCol tsMatch tsRank (hasFtsQuery query_text) r))
        (some (combScore dist tsMatch tsRank (hasFtsQuery query_text) r))
        r.module_name r.document_filename)

/-- The old SQL function `match_documents` (002 migration): pure cosine
similarity, ordered by distance ascending, document-id and user filters
only. -/
def match_documents (dist : DbChunk → ℚ) (match_count : Nat)
    (filter_document_id filter_user_id : Option String)
    (db : List DbChunk) : List MatchRow :=
  (((db.filter
        (fun r =>
          (match filter_document_id with
           | none => true
           | some d => d == r.document_id) &&
          (match filter_user_id with
           | none => true
           | some u => u == r.uploaded_by))).insertionSort
      (fun a b => dist a ≤ dist b)).take match_count).map
    (fun r =>
      MatchRow.mk r.id r.document_id r.content r.chunk_index
        (some (simScore dist r)) none none none none)

-- ─── The `/api/study/chat` handler ───────────────────────────

/-- A conversation message as sent by the client. -/
structure ChatMsg where
  role : String
  content : String
deriving Repr, DecidableEq

/-- The request body of `POST /api/study/chat`. -/
structure ChatReq where
  question : String
  document_id : Option String
  module_name : Option String
  chat_history : List ChatMsg
deriving Repr, DecidableEq

/-- Environment of one chat request: the user, their usage row, the clock and
the outcomes of the external collaborators (rewrite model, embedding model,
the two search RPCs and the generation model), observed only if called. -/
structure ChatEnv where
  userId : String
  usageRow : Option Nat
  now : Nat
  rewriteResult : Except Unit (Option String)
  embedResult : Except Unit Unit
  hybridResult : Except Unit (List MatchRow)
  fallbackResult : Except Unit (List MatchRow)
  genResult : Except Unit (Option String)
deriving Repr

/-- The answer text of a chat response; the two fixed low-confidence message
variants are distinguished symbolically. -/
inductive AnswerText where
  | generated (s : String)
  | noResponse
  | weakMatches
  | nothingFound
deriving Repr, DecidableEq

/-- A `Source` object returned to the user. -/
structure SourceOut where
  chunkIndex : Nat
  content : String
  documentName : String
  similarity : ℚ
  combinedScore : ℚ
deriving Repr, DecidableEq

/-- The JSON response of `POST /api/study/chat`. -/
inductive ChatResp where
  | badRequest
  | questionTooLong
  | rateLimited (queryCount : Nat) (resetTime : Nat)
  | searchFailed
  | lowConfidence (answer : AnswerText) (queryCount : Nat)
  | success (answer : AnswerText) (sources : List SourceOut)
  | internalError
deriving Repr, DecidableEq

/-- Arguments of the `match_documents_hybrid` RPC call. -/
structure HybridArgs where
  query_text : String
  match_count : Nat
  similarity_threshold : ℚ
  filter_document_id : Option String
  filter_user_id : Option String
  filter_module : Option String
deriving Repr, DecidableEq

/-- Arguments of the fallback `match_documents` RPC call (the RPC takes no
module filter). -/
structure FallbackArgs where
  match_count : Nat
  filter_document_id : Option String
  filter_user_id : Option String
deriving Repr, DecidableEq

/-- Which external collaborators a request invoked. -/
structure CallTrace where
  rewriteCalled : Bool
  embedCalled : Bool
  hybridCall : Option HybridArgs
  fallbackCall : Option FallbackArgs
  genCalled : Bool
deriving Repr, DecidableEq

/-- No model or database search call at all. -/
def noCalls : CallTrace := CallTrace.mk false false none none false

/-- `Math.round(q * 100) / 100`: round to two decimals, halves towards
positive infinity. -/
def jsRound2 (q : ℚ) : ℚ := (⌊q * 100 + 1 / 2⌋ : ℚ) / 100

/-- Build a `Source` object from a match row (study.ts lines 1021–1027). -/
def mkSource (m : MatchRow) : SourceOut :=
  SourceOut.mk m.chunk_index
    (String.mk (m.content.data.take 300 ++
      (if 300 < m.content.data.length then "...".data else [])))
    (strOr m.document_filename "Unknown")
    (jsRound2 (numOr m.similarity 0))
    (jsRound2 (numOr m.combined_score (numOr m.similarity 0)))

/-- The score used by the threshold filter:
`m.similarity || m.combined_score || 0`. -/
def effScore (m : MatchRow) : ℚ := numOr m.similarity (numOr m.combined_score 0)

/-- Apply the similarity threshold and cap at `MAX_CHUNKS_TO_LLM`
(study.ts lines 946–948). -/
def qualityMatchesOf (ms : List MatchRow) : List MatchRow :=
  (ms.filter (fun m => decide (SIMILARITY_THRESHOLD ≤ effScore m))).take
    MAX_CHUNKS_TO_LLM

/-- Average similarity of the unfiltered candidate set (zero when empty),
driving the low-confidence message variant. -/
def avgSimilarityOf (ms : List MatchRow) : ℚ :=
  if 0 < ms.length then
    (ms.map (fun m => numOr m.similarity 0)).sum / ms.length
  else 0

-- ─── Follow-up detection (the reformulation trigger regex) ───

/-- A JavaScript `\b` word character: `[A-Za-z0-9_]`. -/
def isWordChar (c : Char) : Bool := c.isAlpha || c.isDigit || c == '_'

/-- The referential cue words of
`/\b(that|this|it|those|these|above|previous|last|more|explain|elaborate)\b/i`. -/
def followUpWords : List (List Char) :=
  ["that".data, "this".data, "it".data, "those".data, "these".data,
   "above".data, "previous".data, "last".data, "more".data, "explain".data,
   "elaborate".data]

/-- Does `q` start with the word `w` followed by a word boundary? -/
def matchesWordAt (w q : List Char) : Bool :=
  w.isPrefixOf q &&
    (match q.drop w.length with
     | [] => true
     | c :: _ => !isWordChar c)

/-- Scan `q` for an occurrence of `w` with word boundaries on both sides;
`prevW` records whether the previous character was a word character. -/
def hasWholeWord (w : List Char) : List Char → Bool → Bool
  | [], _ => false
  | c :: rest, prevW =>
    (!prevW && matchesWordAt w (c :: rest)) || hasWholeWord w rest (isWordChar c)

/-- The follow-up cue test on the question (case-insensitive, whole word). -/
def isFollowUp (question : String) : Bool :=
  followUpWords.any (fun w => hasWholeWord w (question.data.map Char.toLower) false)

-- ─── The chat pipeline ───────────────────────────────────────

/-- The arguments the handler passes to the `match_documents_hybrid` RPC
(study.ts lines 915–923). -/
def hybridArgsOf (req : ChatReq) (env : ChatEnv) (searchQuery : String) :
    HybridArgs :=
  HybridArgs.mk searchQuery (MAX_CHUNKS_TO_LLM + 3) SIMILARITY_THRESHOLD
    (optStr req.document_id) (some env.userId) (optStr req.module_name)

/-- The arguments the handler passes to the fallback `match_documents` RPC
(study.ts lines 928–933): no module filter, plain `MAX_CHUNKS_TO_LLM`. -/
def fallbackArgsOf (req : ChatReq) (env : ChatEnv) : FallbackArgs :=
  FallbackArgs.mk MAX_CHUNKS_TO_LLM (optStr req.document_id) (some env.userId)

/-- The effective search query: the rewritten standalone query when history
exists and the question carries a follow-up cue, falling back to the
original question if the rewrite fails or returns nothing. -/
def searchQueryOf (req : ChatReq) (env : ChatEnv) : String :=
  if (lastN (CHAT_HISTORY_TURNS * 2) req.chat_history).isEmpty then req.question
  else if isFollowUp req.question then
    match env.rewriteResult with
    | .error _ => req.question
    | .ok none => req.question
    | .ok (some c) =>
      let t := String.mk (jsTrim c.data)
      if t = "" then req.question else t
  else req.question

/-- Whether the rewrite model is invoked. -/
def rewriteCalledOf (req : ChatReq) : Bool :=
  !(lastN (CHAT_HISTORY_TURNS * 2) req.chat_history).isEmpty &&
    isFollowUp req.question

/-- Steps 4–9 of the handler, once a match list has been obtained: threshold
filter, low-confidence short-circuit (no generation call), otherwise
generation and the sources list. -/
def chatAfterRetrieval (req : ChatReq) (env : ChatEnv) (ms : List MatchRow)
    (hargs : HybridArgs) (fargs : Option FallbackArgs) : ChatResp × CallTrace :=
  let rl := checkRateLimit env.usageRow env.now
  let quality := qualityMatchesOf ms
  let baseTrace := CallTrace.mk (rewriteCalledOf req) true (some hargs) fargs false
  if quality.isEmpty then
    (ChatResp.lowConfidence
      (if 0 < avgSimilarityOf ms then AnswerText.weakMatches
       else AnswerText.nothingFound)
      rl.queryCount, baseTrace)
  else
    match env.genResult with
    | .error _ => (ChatResp.internalError, { baseTrace with genCalled := true })
    | .ok c =>
      let answer :=
        match c with
        | some s => if s = "" then AnswerText.noResponse else AnswerText.generated s
        | none => AnswerText.noResponse
      (ChatResp.success answer (quality.map mkSource),
        { baseTrace with genCalled := true })

/-- Steps 1–3 of the retrieval phase: reformulate, embed, hybrid search with
fallback to `match_documents` on hybrid failure, surfacing a search error
only when both fail. -/
def chatRetrieve (req : ChatReq) (env : ChatEnv) : ChatResp × CallTrace :=
  let hargs := hybridArgsOf req env (searchQueryOf req env)
  match env.embedResult with
  | .error _ =>
    (ChatResp.internalError,
      CallTrace.mk (rewriteCalledOf req) true none none false)
  | .ok _ =>
    match env.hybridResult with
    | .ok data => chatAfterRetrieval req env data hargs none
    | .error _ =>
      let fargs := fallbackArgsOf req env
      match env.fallbackResult with
      | .ok data => chatAfterRetrieval req env data hargs (some fargs)
      | .error _ =>
        (ChatResp.searchFailed,
          CallTrace.mk (rewriteCalledOf req) true (some hargs) (some fargs) false)

/-- The `POST /api/study/chat` handler (study.ts lines 841–1034): question
validation, rate limiting, then the retrieval/generation pipeline. -/
def chatHandler (req : ChatReq) (env : ChatEnv) : ChatResp × CallTrace :=
  if req.question = "" then (ChatResp.badRequest, noCalls)
  else if MAX_QUESTION_LENGTH < req.question.length then
    (ChatResp.questionTooLong, noCalls)
  else if (checkRateLimit env.usageRow env.now).allowed then chatRetrieve req env
  else
    (ChatResp.rateLimited (checkRateLimit env.usageRow env.now).queryCount
      (checkRateLimit env.usageRow env.now).resetTime, noCalls)

/-- The match list the handler ends up using, when retrieval succeeds. -/
def retrievedMatches (env : ChatEnv) : Option (List MatchRow) :=
  match env.hybridResult with
  | .ok data => some data
  | .error _ =>
    match env.fallbackResult with
    | .ok data => some data
    | .error _ => none

/-- The sources carried by a chat response (empty except on success). -/
def sourcesOf (r : ChatResp) : List SourceOut :=
  match r with
  | .success _ s => s
  | _ => []

-- ─── The `/api/study/ingest` handler ─────────────────────────

/-- Result of the ingest request's field and path validation. -/
inductive IngestCheck where
  | missingFields
  | accessDenied
  | ok
deriving Repr, DecidableEq

/-- The validation the ingest handler performs on the caller-supplied
`storage_path` (study.ts lines 699–707): required fields, then the
namespace-prefix check `storage_path.startsWith(user.id + "/")`.  No other
check is applied to the path. -/
def ingestValidate (userId : String) (storage_path filename : Option String) :
    IngestCheck :=
  match storage_path, filename with
  | none, _ => IngestCheck.missingFields
  | _, none => IngestCheck.missingFields
  | some sp, some fn =>
    if sp = "" ∨ fn = "" then IngestCheck.missingFields
    else if (userId ++ "/").data.isPrefixOf sp.data then IngestCheck.ok
    else IngestCheck.accessDenied

/-- Modelled from the spec: a path containing a traversal sequence. -/
def containsTraversal (path : String) : Bool :=
  decide (List.IsInfix "..".data path.data)

/-- Document lifecycle status. -/
inductive DocStatus where
  | processing
  | ready
  | error
deriving Repr, DecidableEq

/-- Split the chunk list into embedding batches of 20. -/
def chunkBatches : List α → List (List α)
  | [] => []
  | a :: t => (a :: t).take 20 :: chunkBatches ((a :: t).drop 20)
termination_by l => l.length
decreasing_by
  simp only [List.length_drop, List.length_cons]
  omega

/-- Outcome of the detached embedding phase. -/
structure DetachedResult where
  embedCalls : Nat
  finalStatus : DocStatus
  chunkCount : Option Nat
deriving Repr, DecidableEq

/-- The detached phase of the ingest handler (study.ts lines 775–830): embed
the chunks in batches of 20, insert the rows, then flip the document to
`ready` with the chunk count; any embedding failure or insert error flips it
to `error` instead.  The batch loop is skipped entirely when there are no
chunks. -/
def detachedPhase (chunks : List (List Word)) (embedOk insertOk : Bool) :
    DetachedResult :=
  let batches := chunkBatches chunks
  if !embedOk && !batches.isEmpty then DetachedResult.mk 1 DocStatus.error none
  else if !insertOk then DetachedResult.mk batches.length DocStatus.error none
  else DetachedResult.mk batches.length DocStatus.ready (some chunks.length)

/-- The extracted-text gate of the ingest handler:
`text.trim().length < 50` is rejected before anything is stored. -/
def passesContentGate (text : List Char) : Bool :=
  decide (50 ≤ (jsTrim text).length)

-- ─── Concrete inputs for witnesses and counterexamples ───────

/-- A plain one-character question with no history. -/
def wReq : ChatReq := ChatReq.mk "q" none none []

/-- The same question scoped to module `Biology`. -/
def wReqMod : ChatReq := ChatReq.mk "q" none (some "Biology") []

/-- Build an environment for user `u` at the epoch with the given usage row
and search outcomes; rewrite returns nothing, embedding succeeds and the
generation model answers `ans`. -/
def mkEnv (usage : Option Nat) (hyb fb : Except Unit (List MatchRow)) : ChatEnv :=
  ChatEnv.mk "u" usage 0 (Except.ok none) (Except.ok ()) hyb fb
    (Except.ok (some "ans"))

/-- A candidate whose similarity (0.1) is below the threshold. -/
def lowMatch : MatchRow :=
  MatchRow.mk "c1" "d1" "weak text" 0 (some (1 / 10)) none none none none

/-- A single-chunk corpus: one chunk in module `Math`, owned by user `u`. -/
def cexDb : List DbChunk :=
  [DbChunk.mk "c9" "d9" "mito" 0 (some "Math") (some "bio.pdf") "u"]

/-- Distance oracle: every chunk is at cosine distance 0.5 from the query. -/
def cexDist : DbChunk → ℚ := fun _ => 1 / 2

/-- Full-text oracle: no chunk matches the lexical query. -/
def cexTsMatch : DbChunk → Bool := fun _ => false

/-- Full-text rank oracle. -/
def cexTsRank : DbChunk → ℚ := fun _ => 0

/-- 62 characters but only 3 words: passes the 50-character content gate yet
chunks to nothing. -/
def c10Text : List Char :=
  "aaaaaaaaaaaaaaaaaaaa bbbbbbbbbbbbbbbbbbbb cccccccccccccccccccc".data


theorem length_lastN (n : Nat) (l : List α) : (lastN n l).length = min n l.length := by
  simp only [lastN, List.length_drop]
  omega

theorem lastN_ne_nil {n : Nat} {l : List α} (hn : 0 < n) (hl : l ≠ []) :
    lastN n l ≠ [] := by
  intro h
  apply hl
  have hlen := length_lastN n l
  rw [h] at hlen
  simp only [List.length_nil] at hlen
  have hz : l.length = 0 := by omega
  exact List.length_eq_zero.mp hz

theorem drop_min_lastN (n : Nat) (l : List α) :
    (lastN n l).drop (min n l.length) = [] := by
  apply List.drop_eq_nil_of_le
  rw [length_lastN]

theorem mem_of_getLast?_eq {l : List α} {a : α} (h : l.getLast? = some a) : a ∈ l := by
  cases hl : l with
  | nil => rw [hl] at h; simp at h
  | cons x t =>
    rw [hl] at h
    have hne : x :: t ≠ [] := by simp
    rw [List.getLast?_eq_getLast _ hne] at h
    have := List.getLast_mem hne
    rwa [Option.some_inj.mp h] at this

theorem getLastD_cons (d prev : α) (t : List α) :
    (d :: t).getLast?.getD prev = t.getLast?.getD d := by
  cases t with
  | nil => simp
  | cons e u =>
    rw [List.getLast?_cons_cons, List.getLast?_eq_getLast (e :: u) (by simp)]
    simp

theorem uniqAux_append (prev : List Word) (l : List (List Word)) (c : List Word) :
    uniqAux prev (l ++ [c]) = uniqAux prev l ++ dropOv (l.getLast?.getD prev) c := by
  induction l generalizing prev with
  | nil => simp [uniqAux]
  | cons d t ih =>
    simp only [List.cons_append, uniqAux, List.append_eq]
    rw [ih d, getLastD_cons, List.append_assoc]

theorem uniqConcat_append (l : List (List Word)) (c : List Word) :
    uniqConcat (l ++ [c]) =
      uniqConcat l ++
        (match l.getLast? with
         | none => c
         | some p => dropOv p c) := by
  cases l with
  | nil => simp [uniqConcat, uniqAux]
  | cons d t =>
    have h : (d :: t).getLast? = some ((d :: t).getLast (by simp)) :=
      List.getLast?_eq_getLast _ (by simp)
    have h2 : t.getLast?.getD d = (d :: t).getLast (by simp) := by
      have h3 := getLastD_cons d d t
      rw [h] at h3
      simpa using h3.symm
    simp only [List.cons_append, uniqConcat, uniqAux_append, h, h2, List.append_assoc]

theorem eq_nil_of_getLast?_eq_none {l : List α} (h : l.getLast? = none) : l = [] := by
  cases l with
  | nil => rfl
  | cons a t =>
    rw [List.getLast?_eq_getLast _ (by simp)] at h
    simp at h

/-- Flushing the running passage preserves the invariant core: the new chunk
extends the previous chain, and the new passage is exactly its overlap seed. -/
theorem flush_mid {chunks : List (List Word)} {cur ws : List Word}
    (h : Mid (ChunkState.mk chunks cur) ws) (hc : cur ≠ []) :
    Mid (ChunkState.mk (chunks ++ [cur]) (lastN CHUNK_OVERLAP_WORDS cur)) ws := by
  obtain ⟨hne, hchain, htail⟩ := h
  refine ⟨?_, ?_, ?_⟩
  · intro c hcmem
    rcases List.mem_append.mp hcmem with h1 | h1
    · exact hne c h1
    · simp only [List.mem_singleton] at h1
      subst h1; exact hc
  · rw [List.chain'_append]
    refine ⟨hchain, List.chain'_singleton _, ?_⟩
    intro x hx y hy
    simp only [List.head?_cons, Option.mem_def, Option.some_inj] at hy
    subst hy
    have hx' : chunks.getLast? = some x := Option.mem_def.mp hx
    unfold Tail at htail
    rw [hx'] at htail
    exact ⟨htail.1, hne x (mem_of_getLast?_eq hx')⟩
  · unfold Tail
    rw [List.getLast?_concat]
    refine ⟨List.prefix_refl _, ?_⟩
    rw [uniqConcat_append, drop_min_lastN, List.append_nil]
    unfold Tail at htail
    cases hgl : chunks.getLast? with
    | none =>
      rw [hgl] at htail
      rw [eq_nil_of_getLast?_eq_none hgl]
      simpa [uniqConcat] using htail
    | some p =>
      rw [hgl] at htail
      simpa [dropOv] using htail.2

/-- Appending fresh paragraph words to the running passage preserves the
invariant core, consuming those words. -/
theorem append_mid {chunks : List (List Word)} {cur ws : List Word}
    (h : Mid (ChunkState.mk chunks cur) ws) (pw : List Word) :
    Mid (ChunkState.mk chunks (cur ++ pw)) (ws ++ pw) := by
  obtain ⟨hne, hchain, htail⟩ := h
  refine ⟨hne, hchain, ?_⟩
  unfold Tail at htail ⊢
  dsimp only at htail ⊢
  cases hgl : chunks.getLast? with
  | none =>
    rw [hgl] at htail
    dsimp only at htail ⊢
    rw [htail]
  | some p =>
    rw [hgl] at htail
    dsimp only at htail ⊢
    obtain ⟨hpre, hcov⟩ := htail
    have hlen : min CHUNK_OVERLAP_WORDS p.length ≤ cur.length := by
      have h1 := hpre.length_le
      rwa [length_lastN] at h1
    refine ⟨hpre.trans (List.prefix_append cur pw), ?_⟩
    rw [List.drop_append_of_le_length hlen, ← List.append_assoc, hcov]

/-- The second half of a loop iteration preserves the full invariant,
provided the combined passage is large enough whenever chunks exist. -/
theorem flushTarget_inv {chunks : List (List Word)} {cur ws : List Word}
    (pw : List Word) (hmid : Mid (ChunkState.mk chunks cur) ws)
    (hb : chunks ≠ [] →
      CHUNK_OVERLAP_WORDS ≤ cur.length + pw.length ∨
      CHUNK_TARGET_WORDS ≤ cur.length + pw.length) :
    Inv (flushTarget (ChunkState.mk chunks cur) pw) (ws ++ pw) := by
  have hmid2 : Mid (ChunkState.mk chunks (cur ++ pw)) (ws ++ pw) := append_mid hmid pw
  unfold flushTarget
  by_cases ht : CHUNK_TARGET_WORDS ≤ ((ChunkState.mk chunks cur).cur ++ pw).length
  · rw [if_pos ht]
    have hcne : cur ++ pw ≠ [] := by
      intro hnil
      have := ht
      rw [hnil] at this
      simp [CHUNK_TARGET_WORDS] at this
    refine ⟨flush_mid hmid2 hcne, ?_⟩
    intro _
    rw [length_lastN]
    simp only [List.length_append, CHUNK_TARGET_WORDS, CHUNK_OVERLAP_WORDS] at ht ⊢
    omega
  · rw [if_neg ht]
    refine ⟨hmid2, ?_⟩
    intro hch
    simp only [List.length_append, not_le] at ht ⊢
    rcases hb hch with h1 | h1
    · simpa using h1
    · exfalso
      simp only [CHUNK_TARGET_WORDS] at h1 ht
      omega

/-- A full loop iteration preserves the invariant. -/
theorem chunkStepW_inv {s : ChunkState} {ws : List Word} (pw : List Word)
    (h : Inv s ws) : Inv (chunkStepW s pw) (ws ++ pw) := by
  obtain ⟨chunks, cur⟩ := s
  unfold chunkStepW
  by_cases hmax : cur ≠ [] ∧ CHUNK_MAX_WORDS < cur.length + pw.length
  · rw [if_pos (by simpa using hmax)]
    apply flushTarget_inv pw (flush_mid h.mid hmax.1)
    intro _
    rw [length_lastN]
    have h2 := hmax.2
    simp only [CHUNK_MAX_WORDS, CHUNK_OVERLAP_WORDS, CHUNK_TARGET_WORDS] at h2 ⊢
    omega
  · rw [if_neg (by simpa using hmax)]
    apply flushTarget_inv pw h.mid
    intro hch
    left
    have hb := h.bound hch
    dsimp only at hb
    omega

/-- The loop invariant holds at the end of the paragraph loop. -/
theorem chunkLoop_inv (ps : List (List Char)) :
    Inv (chunkLoop ps) ((ps.map splitWs).flatten) := by
  have key : ∀ (l : List (List Char)) (s : ChunkState) (ws : List Word),
      Inv s ws → Inv (l.foldl chunkStep s) (ws ++ (l.map splitWs).flatten) := by
    intro l
    induction l with
    | nil => intro s ws h; simpa using h
    | cons p t ih =>
      intro s ws h
      simp only [List.foldl_cons, List.map_cons, List.flatten_cons, ← List.append_assoc]
      exact ih _ _ (chunkStepW_inv (splitWs p) h)
  have h0 : Inv (ChunkState.mk [] []) [] := by
    refine ⟨⟨by simp, by simp, ?_⟩, by simp⟩
    unfold Tail
    simp
  simpa [chunkLoop] using key ps (ChunkState.mk [] []) [] h0

-- ─── Chunker claim theorems ──────────────────────────────────

set_option maxRecDepth 100000 in
/-- C5, counterexample: the claim "splitIntoChunks produces no chunk under 20
words except possibly none at all" is false: on `cexChunkText` the output is
non-empty and its first chunk has a single word (the chunk word counts are
`[1, 601, 60]`). -/
theorem splitIntoChunks_short_chunk_cex :
    (splitIntoChunksW cexChunkText).map List.length = [1, 601, 60] := by
  decide

/-- C5, amended: `splitIntoChunks` is deterministic, and the *final
remainder* is never emitted when it has 20 or fewer words — equivalently,
the last chunk of a non-empty output always has more than 20 words
(intermediate forced flushes, however, may emit chunks under 20 words, as
the counterexample shows). -/
theorem splitIntoChunks_det_and_remainder :
    (∀ t₁ t₂ : String, t₁ = t₂ → splitIntoChunks t₁ = splitIntoChunks t₂) ∧
    (∀ (text : List Char) (c : List Word),
      (splitIntoChunksW text).getLast? = some c → 20 < c.length) := by
  constructor
  · intro t₁ t₂ h
    rw [h]
  · intro text c hgl
    have h := chunkLoop_inv (paragraphsOf text)
    unfold splitIntoChunksW at hgl
    by_cases hc : 20 < (chunkLoop (paragraphsOf text)).cur.length
    · rw [if_pos hc] at hgl
      rw [List.getLast?_concat] at hgl
      exact Option.some_inj.mp hgl ▸ hc
    · rw [if_neg hc] at hgl
      have hne : (chunkLoop (paragraphsOf text)).chunks ≠ [] := by
        intro hnil
        rw [hnil] at hgl
        simp at hgl
      have hb := h.bound hne
      simp only [CHUNK_OVERLAP_WORDS] at hb
      omega

/-- Witness for C5 amended: determinism at `"a"`, and the last-chunk bound at
the 25-word input, whose single chunk is the kept remainder. -/
theorem splitIntoChunks_det_and_remainder_witness :
    splitIntoChunks "a" = splitIntoChunks "a" ∧
    20 < (List.replicate 25 (['a'] : Word)).length := by
  refine ⟨splitIntoChunks_det_and_remainder.1 "a" "a" rfl, ?_⟩
  exact splitIntoChunks_det_and_remainder.2 smallChunkText
    (List.replicate 25 ['a']) (by decide)

/-- C6: whenever `splitIntoChunks` produces more than one chunk, each chunk
after the first begins with the trailing `CHUNK_OVERLAP_WORDS` words of the
previously flushed chunk (all of them when the previous chunk is shorter),
and that shared overlap is non-empty. -/
theorem splitIntoChunks_overlap (text : List Char) :
    (splitIntoChunksW text).Chain'
      (fun a b => lastN CHUNK_OVERLAP_WORDS a <+: b ∧
        lastN CHUNK_OVERLAP_WORDS a ≠ []) := by
  have h := chunkLoop_inv (paragraphsOf text)
  have hK : 0 < CHUNK_OVERLAP_WORDS := by simp [CHUNK_OVERLAP_WORDS]
  unfold splitIntoChunksW
  by_cases hc : 20 < (chunkLoop (paragraphsOf text)).cur.length
  · rw [if_pos hc]
    have hchain2 :
        ((chunkLoop (paragraphsOf text)).chunks ++
          [(chunkLoop (paragraphsOf text)).cur]).Chain' ovRel := by
      rw [List.chain'_append]
      refine ⟨h.mid.chain, List.chain'_singleton _, ?_⟩
      intro x hx y hy
      simp only [List.head?_cons, Option.mem_def, Option.some_inj] at hy
      subst hy
      have hx' := Option.mem_def.mp hx
      have htail := h.mid.tail
      unfold Tail at htail
      rw [hx'] at htail
      exact ⟨htail.1, h.mid.nonempty x (mem_of_getLast?_eq hx')⟩
    exact hchain2.imp (fun a b hab => ⟨hab.1, lastN_ne_nil hK hab.2⟩)
  · rw [if_neg hc]
    exact h.mid.chain.imp (fun a b hab => ⟨hab.1, lastN_ne_nil hK hab.2⟩)

/-- C7, counterexample: the claim "no paragraph of the input is dropped" is
false: `elevenWordText` has one kept paragraph of 11 words, yet the chunker
emits nothing, so the concatenated unique content is empty. -/
theorem splitIntoChunks_coverage_cex :
    uniqConcat (splitIntoChunksW elevenWordText) = [] ∧
    ((paragraphsOf elevenWordText).map splitWs).flatten =
      List.replicate 11 ['a'] ∧
    List.replicate 11 (['a'] : Word) ≠ [] := by
  refine ⟨by decide, by decide, by decide⟩

/-- C7, amended: concatenating all chunks' unique (non-overlap) content
reconstructs the word sequence of the kept paragraphs (those longer than 10
characters after trimming) *up to a discarded final remainder of at most 20
words*. -/
theorem splitIntoChunks_coverage (text : List Char) :
    ∃ dropped : List Word, dropped.length ≤ 20 ∧
      uniqConcat (splitIntoChunksW text) ++ dropped =
        ((paragraphsOf text).map splitWs).flatten := by
  have h := chunkLoop_inv (paragraphsOf text)
  have htail := h.mid.tail
  unfold Tail at htail
  unfold splitIntoChunksW
  by_cases hc : 20 < (chunkLoop (paragraphsOf text)).cur.length
  · rw [if_pos hc]
    refine ⟨[], by simp, ?_⟩
    rw [List.append_nil, uniqConcat_append]
    cases hgl : (chunkLoop (paragraphsOf text)).chunks.getLast? with
    | none =>
      rw [hgl] at htail
      dsimp only at htail
      rw [eq_nil_of_getLast?_eq_none hgl]
      simpa [uniqConcat] using htail
    | some p =>
      rw [hgl] at htail
      dsimp only at htail
      simpa [dropOv] using htail.2
  · rw [if_neg hc]
    cases hgl : (chunkLoop (paragraphsOf text)).chunks.getLast? with
    | none =>
      rw [hgl] at htail
      dsimp only at htail
      refine ⟨(chunkLoop (paragraphsOf text)).cur, by omega, ?_⟩
      rw [eq_nil_of_getLast?_eq_none hgl]
      simpa [uniqConcat] using htail
    | some p =>
      rw [hgl] at htail
      dsimp only at htail
      refine ⟨(chunkLoop (paragraphsOf text)).cur.drop
        (min CHUNK_OVERLAP_WORDS p.length), ?_, htail.2⟩
      have hd := List.length_drop (min CHUNK_OVERLAP_WORDS p.length)
        (chunkLoop (paragraphsOf text)).cur
      omega

-- ─── Helper lemmas for the chat pipeline ─────────────────────

theorem jsRound2_threshold {q : ℚ} (h : SIMILARITY_THRESHOLD ≤ q) :
    SIMILARITY_THRESHOLD ≤ jsRound2 q := by
  unfold SIMILARITY_THRESHOLD at h ⊢
  unfold jsRound2
  have h30 : (30 : ℤ) ≤ ⌊q * 100 + 1 / 2⌋ := by
    apply Int.le_floor.mpr
    push_cast
    linarith
  have h30q : (30 : ℚ) ≤ (⌊q * 100 + 1 / 2⌋ : ℤ) := by exact_mod_cast h30
  linarith

theorem numOr_none (d : ℚ) : numOr none d = d := rfl

theorem numOr_some_zero (d : ℚ) : numOr (some 0) d = d := by simp [numOr]

theorem numOr_some_ne {x : ℚ} (d : ℚ) (hx : x ≠ 0) : numOr (some x) d = x := by
  simp [numOr, hx]

/-- A source built from a match that cleared the filter has its similarity or
its combined score above the threshold. -/
theorem mkSource_score {m : MatchRow} (h : SIMILARITY_THRESHOLD ≤ effScore m) :
    SIMILARITY_THRESHOLD ≤ (mkSource m).similarity ∨
      SIMILARITY_THRESHOLD ≤ (mkSource m).combinedScore := by
  have he : effScore m = numOr m.similarity (numOr m.combined_score 0) := rfl
  have hsim : (mkSource m).similarity = jsRound2 (numOr m.similarity 0) := rfl
  have hc : (mkSource m).combinedScore =
      jsRound2 (numOr m.combined_score (numOr m.similarity 0)) := rfl
  rw [he] at h
  cases hs : m.similarity with
  | none =>
    rw [hs, numOr_none] at h
    rw [hs, numOr_none] at hc
    right
    rw [hc]
    exact jsRound2_threshold h
  | some x =>
    by_cases hx : x = 0
    · subst hx
      rw [hs, numOr_some_zero] at h
      rw [hs, numOr_some_zero] at hc
      right
      rw [hc]
      exact jsRound2_threshold h
    · rw [hs, numOr_some_ne _ hx] at h
      rw [hs, numOr_some_ne _ hx] at hsim
      left
      rw [hsim]
      exact jsRound2_threshold h

theorem qualityMatches_score {ms : List MatchRow} :
    ∀ m ∈ qualityMatchesOf ms, SIMILARITY_THRESHOLD ≤ effScore m := by
  intro m hm
  unfold qualityMatchesOf at hm
  have h1 := List.mem_of_mem_take hm
  exact of_decide_eq_true (List.mem_filter.mp h1).2

theorem qualityMatches_length {ms : List MatchRow} :
    (qualityMatchesOf ms).length ≤ MAX_CHUNKS_TO_LLM := by
  unfold qualityMatchesOf
  exact List.length_take_le _ _

theorem chatAfterRetrieval_hybridCall (req : ChatReq) (env : ChatEnv)
    (ms : List MatchRow) (hargs : HybridArgs) (fargs : Option FallbackArgs) :
    (chatAfterRetrieval req env ms hargs fargs).2.hybridCall = some hargs := by
  unfold chatAfterRetrieval
  dsimp only
  split
  · rfl
  · split <;> rfl

theorem chatAfterRetrieval_fallbackCall (req : ChatReq) (env : ChatEnv)
    (ms : List MatchRow) (hargs : HybridArgs) (fargs : Option FallbackArgs) :
    (chatAfterRetrieval req env ms hargs fargs).2.fallbackCall = fargs := by
  unfold chatAfterRetrieval
  dsimp only
  split
  · rfl
  · split <;> rfl

theorem chatAfterRetrieval_ne_searchFailed (req : ChatReq) (env : ChatEnv)
    (ms : List MatchRow) (hargs : HybridArgs) (fargs : Option FallbackArgs) :
    (chatAfterRetrieval req env ms hargs fargs).1 ≠ ChatResp.searchFailed := by
  unfold chatAfterRetrieval
  dsimp only
  split
  · simp
  · split <;> simp

/-- Steps 4–9 respect the threshold, the cap, and the low-confidence
short-circuit. -/
theorem chatAfterRetrieval_spec (req : ChatReq) (env : ChatEnv)
    (ms : List MatchRow) (hargs : HybridArgs) (fargs : Option FallbackArgs) :
    (∀ s ∈ sourcesOf (chatAfterRetrieval req env ms hargs fargs).1,
        SIMILARITY_THRESHOLD ≤ s.similarity ∨
          SIMILARITY_THRESHOLD ≤ s.combinedScore) ∧
    (sourcesOf (chatAfterRetrieval req env ms hargs fargs).1).length ≤
        MAX_CHUNKS_TO_LLM ∧
    (qualityMatchesOf ms = [] →
      (chatAfterRetrieval req env ms hargs fargs).1 =
        ChatResp.lowConfidence
          (if 0 < avgSimilarityOf ms then AnswerText.weakMatches
           else AnswerText.nothingFound)
          (env.usageRow.getD 0) ∧
      (chatAfterRetrieval req env ms hargs fargs).2.genCalled = false) := by
  unfold chatAfterRetrieval
  dsimp only
  by_cases hq : (qualityMatchesOf ms).isEmpty
  · rw [if_pos hq]
    refine ⟨by simp [sourcesOf], by simp [sourcesOf], fun _ => ⟨rfl, rfl⟩⟩
  · rw [if_neg hq]
    have hqne : qualityMatchesOf ms ≠ [] := by
      intro h
      exact hq (List.isEmpty_iff.mpr h)
    cases hg : env.genResult with
    | error e =>
      refine ⟨by simp [sourcesOf], by simp [sourcesOf], fun h => absurd h hqne⟩
    | ok c =>
      refine ⟨?_, ?_, fun h => absurd h hqne⟩
      · intro s hs
        simp only [sourcesOf] at hs
        obtain ⟨m, hm, rfl⟩ := List.mem_map.mp hs
        exact mkSource_score (qualityMatches_score m hm)
      · simp only [sourcesOf, List.length_map]
        exact qualityMatches_length

/-- With a valid question and remaining quota, the handler proceeds to the
retrieval phase. -/
theorem chatHandler_validated (req : ChatReq) (env : ChatEnv)
    (hq1 : req.question ≠ "") (hq2 : req.question.length ≤ MAX_QUESTION_LENGTH)
    (hallow : env.usageRow.getD 0 < DAILY_QUERY_LIMIT) :
    chatHandler req env = chatRetrieve req env := by
  unfold chatHandler
  rw [if_neg hq1, if_neg (not_lt.mpr hq2), if_pos]
  show (checkRateLimit env.usageRow env.now).allowed = true
  unfold checkRateLimit
  simpa using hallow

-- ─── Claim theorems: chat handler ────────────────────────────

/-- C1: for every successful retrieval, each returned Source clears the 0.3
threshold on its similarity-or-combined score, at most `MAX_CHUNKS_TO_LLM`
sources are returned, and when no candidate clears the threshold the
response is the low-confidence variant with empty sources and no generation
call, the message variant selected by the average similarity of the
unfiltered candidates (positive average: weak matches; otherwise: nothing
found). -/
theorem chat_sources_threshold (req : ChatReq) (env : ChatEnv)
    (ms : List MatchRow) (hq1 : req.question ≠ "")
    (hq2 : req.question.length ≤ MAX_QUESTION_LENGTH)
    (hallow : env.usageRow.getD 0 < DAILY_QUERY_LIMIT)
    (hembed : env.embedResult = Except.ok ())
    (hm : retrievedMatches env = some ms) :
    (∀ s ∈ sourcesOf (chatHandler req env).1,
        SIMILARITY_THRESHOLD ≤ s.similarity ∨
          SIMILARITY_THRESHOLD ≤ s.combinedScore) ∧
    (sourcesOf (chatHandler req env).1).length ≤ MAX_CHUNKS_TO_LLM ∧
    (qualityMatchesOf ms = [] →
      (chatHandler req env).1 =
        ChatResp.lowConfidence
          (if 0 < avgSimilarityOf ms then AnswerText.weakMatches
           else AnswerText.nothingFound)
          (env.usageRow.getD 0) ∧
      (chatHandler req env).2.genCalled = false) := by
  rw [chatHandler_validated req env hq1 hq2 hallow]
  unfold chatRetrieve
  rw [hembed]
  unfold retrievedMatches at hm
  cases hh : env.hybridResult with
  | ok data =>
    rw [hh] at hm
    dsimp only
    rw [Option.some_inj.mp hm]
    exact chatAfterRetrieval_spec req env ms _ none
  | error e =>
    rw [hh] at hm
    cases hf : env.fallbackResult with
    | ok data =>
      rw [hf] at hm
      dsimp only at hm ⊢
      rw [Option.some_inj.mp hm]
      exact chatAfterRetrieval_spec req env ms _ _
    | error e2 =>
      rw [hf] at hm
      simp at hm

/-- Witness for C1: one candidate with similarity 0.1 clears nothing, so the
handler answers with the weak-matches low-confidence variant, empty sources
and no generation call. -/
theorem chat_sources_threshold_witness :
    (chatHandler wReq (mkEnv none (Except.ok [lowMatch]) (Except.ok []))).1 =
      ChatResp.lowConfidence
        (if 0 < avgSimilarityOf [lowMatch] then AnswerText.weakMatches
         else AnswerText.nothingFound)
        ((mkEnv none (Except.ok [lowMatch]) (Except.ok [])).usageRow.getD 0) ∧
    (chatHandler wReq (mkEnv none (Except.ok [lowMatch]) (Except.ok []))).2.genCalled =
      false :=
  (chat_sources_threshold wReq (mkEnv none (Except.ok [lowMatch]) (Except.ok []))
    [lowMatch] (by decide) (by decide) (by decide) rfl rfl).2.2 (by decide)

/-- C3: a user whose usage row already reached `DAILY_QUERY_LIMIT` gets a
rate-limited response carrying the current count and the reset time, and no
model call of any kind is made. -/
theorem chat_rate_limited (req : ChatReq) (env : ChatEnv)
    (hq1 : req.question ≠ "")
    (hq2 : req.question.length ≤ MAX_QUESTION_LENGTH)
    (hlimit : DAILY_QUERY_LIMIT ≤ env.usageRow.getD 0) :
    chatHandler req env =
      (ChatResp.rateLimited (env.usageRow.getD 0) (resetTimeOf env.now),
        noCalls) := by
  unfold chatHandler
  rw [if_neg hq1, if_neg (not_lt.mpr hq2), if_neg]
  · rfl
  · show ¬(checkRateLimit env.usageRow env.now).allowed = true
    unfold checkRateLimit
    simpa using hlimit

/-- Witness for C3: a usage row at exactly 50 queries is rejected without any
model call. -/
theorem chat_rate_limited_witness :
    chatHandler wReq (mkEnv (some 50) (Except.ok []) (Except.ok [])) =
      (ChatResp.rateLimited 50 144000, noCalls) :=
  (chat_rate_limited wReq (mkEnv (some 50) (Except.ok []) (Except.ok []))
    (by decide) (by decide) (by decide)).trans (by decide)

/-- C4, amended: when the hybrid search fails, the handler retries with the
pure cosine `match_documents` query carrying the same document-id and
owning-user filters — but *not* the module filter, which the fallback RPC
does not take — and a successful fallback is never surfaced as a search
error; the search error is returned exactly when both calls fail, and no
fallback call is made when the hybrid call succeeds. -/
theorem chat_fallback_spec (req : ChatReq) (env : ChatEnv)
    (hq1 : req.question ≠ "")
    (hq2 : req.question.length ≤ MAX_QUESTION_LENGTH)
    (hallow : env.usageRow.getD 0 < DAILY_QUERY_LIMIT)
    (hembed : env.embedResult = Except.ok ()) :
    (∀ ms, env.hybridResult = Except.error () →
      env.fallbackResult = Except.ok ms →
      (chatHandler req env).1 ≠ ChatResp.searchFailed ∧
      (chatHandler req env).2.fallbackCall =
        some (FallbackArgs.mk MAX_CHUNKS_TO_LLM (optStr req.document_id)
          (some env.userId))) ∧
    (env.hybridResult = Except.error () →
      env.fallbackResult = Except.error () →
      (chatHandler req env).1 = ChatResp.searchFailed) ∧
    (∀ ms, env.hybridResult = Except.ok ms →
      (chatHandler req env).2.fallbackCall = none) := by
  rw [chatHandler_validated req env hq1 hq2 hallow]
  unfold chatRetrieve
  rw [hembed]
  refine ⟨?_, ?_, ?_⟩
  · intro ms hh hf
    rw [hh, hf]
    dsimp only
    exact ⟨chatAfterRetrieval_ne_searchFailed req env ms _ _,
      chatAfterRetrieval_fallbackCall req env ms _ _⟩
  · intro hh hf
    rw [hh, hf]
  · intro ms hh
    rw [hh]
    dsimp only
    exact chatAfterRetrieval_fallbackCall req env ms _ none

/-- Witness for C4 amended: hybrid failure plus fallback success yields a
non-error response and a fallback call without a module filter. -/
theorem chat_fallback_spec_witness :
    (chatHandler wReqMod
        (mkEnv none (Except.error ())
          (Except.ok (match_documents cexDist 5 none (some "u") cexDb)))).1 ≠
      ChatResp.searchFailed ∧
    (chatHandler wReqMod
        (mkEnv none (Except.error ())
          (Except.ok (match_documents cexDist 5 none (some "u") cexDb)))).2.fallbackCall =
      some (FallbackArgs.mk MAX_CHUNKS_TO_LLM (optStr wReqMod.document_id)
        (some (mkEnv none (Except.error ())
          (Except.ok (match_documents cexDist 5 none (some "u") cexDb))).userId)) :=
  (chat_fallback_spec wReqMod _ (by decide) (by decide) (by decide) rfl).1
    (match_documents cexDist 5 none (some "u") cexDb) rfl rfl

set_option maxRecDepth 100000 in
/-- C4, counterexample: the claim that the fallback uses *the same module
filter* is false.  With a corpus holding only a `Math` chunk and a request
scoped to module `Biology`, the hybrid query (which does apply the module
filter) returns nothing, yet after a hybrid failure the fallback surfaces
that `Math` chunk as a cited source — the module filter was dropped. -/
theorem chat_fallback_module_cex :
    match_documents_hybrid cexDist cexTsMatch cexTsRank "q" 8
        SIMILARITY_THRESHOLD none (some "u") (some "Biology") cexDb = [] ∧
    (chatHandler wReqMod
        (mkEnv none (Except.error ())
          (Except.ok (match_documents cexDist 5 none (some "u") cexDb)))).1 =
      ChatResp.success (AnswerText.generated "ans")
        [SourceOut.mk 0 "mito" "Unknown" (1 / 2) (1 / 2)] := by
  constructor
  · decide
  · decide

-- ─── Claim theorems: hybrid retrieval SQL ────────────────────

theorem hybridSelected_keep (dist : DbChunk → ℚ) (tsM : DbChunk → Bool)
    (tsR : DbChunk → ℚ) (qt : String) (mc : Nat) (θ : ℚ)
    (fdoc fuser fmod : Option String) (db : List DbChunk) :
    ∀ r ∈ hybridSelected dist tsM tsR qt mc θ fdoc fuser fmod db,
      hybridKeep dist θ fdoc fuser fmod r = true := by
  intro r hr
  unfold hybridSelected at hr
  have h1 := List.mem_of_mem_take hr
  have h2 := (List.perm_insertionSort _ _).mem_iff.mp h1
  exact (List.mem_filter.mp h2).2

theorem hybridKeep_unpack {dist : DbChunk → ℚ} {θ : ℚ}
    {fdoc fuser fmod : Option String} {r : DbChunk}
    (h : hybridKeep dist θ fdoc fuser fmod r = true) :
    (∀ d, fdoc = some d → r.document_id = d) ∧
    (∀ u, fuser = some u → r.uploaded_by = u) ∧
    (∀ mo, fmod = some mo → r.module_name = some mo) ∧
    θ ≤ simScore dist r := by
  unfold hybridKeep at h
  simp only [Bool.and_eq_true, decide_eq_true_eq] at h
  obtain ⟨⟨⟨hd, hu⟩, hm⟩, hs⟩ := h
  refine ⟨?_, ?_, ?_, hs⟩
  · intro d hfd
    rw [hfd] at hd
    exact (beq_iff_eq.mp hd).symm
  · intro u hfu
    rw [hfu] at hu
    exact (beq_iff_eq.mp hu).symm
  · intro mo hfm
    rw [hfm] at hm
    exact beq_iff_eq.mp hm

theorem combScore_eq_min (dist : DbChunk → ℚ) (tsM : DbChunk → Bool)
    (tsR : DbChunk → ℚ) (hf : Bool) (r : DbChunk) :
    combScore dist tsM tsR hf r =
      7 / 10 * simScore dist r +
        3 / 10 * min (ftsRankCol tsM tsR hf r * 10) 1 := by
  unfold combScore lexTerm ftsRankCol
  by_cases h : (hf && tsM r) = true
  · rw [if_pos h, if_pos h]
  · rw [if_neg h, if_neg h]
    norm_num

theorem lexTerm_le_one (tsM : DbChunk → Bool) (tsR : DbChunk → ℚ) (hf : Bool)
    (r : DbChunk) : lexTerm tsM tsR hf r ≤ 1 := by
  unfold lexTerm
  by_cases h : (hf && tsM r) = true
  · rw [if_pos h]
    exact min_le_right _ _
  · rw [if_neg h]
    norm_num

/-- Every branch of the handler records either no hybrid call or exactly the
arguments built by `hybridArgsOf`. -/
theorem chatHandler_hybridCall (req : ChatReq) (env : ChatEnv) :
    (chatHandler req env).2.hybridCall = none ∨
    (chatHandler req env).2.hybridCall =
      some (hybridArgsOf req env (searchQueryOf req env)) := by
  unfold chatHandler
  by_cases h1 : req.question = ""
  · rw [if_pos h1]
    left
    rfl
  rw [if_neg h1]
  by_cases h2 : MAX_QUESTION_LENGTH < req.question.length
  · rw [if_pos h2]
    left
    rfl
  rw [if_neg h2]
  by_cases h3 : (checkRateLimit env.usageRow env.now).allowed = true
  · rw [if_pos h3]
    unfold chatRetrieve
    cases he : env.embedResult with
    | error e =>
      left
      rfl
    | ok u =>
      cases hh : env.hybridResult with
      | ok data =>
        right
        exact chatAfterRetrieval_hybridCall req env data _ none
      | error e =>
        cases hf : env.fallbackResult with
        | ok data =>
          right
          exact chatAfterRetrieval_hybridCall req env data _ _
        | error e2 =>
          right
          rfl
  · rw [if_neg h3]
    left
    rfl

/-- C2: every row returned by the primary hybrid query carries
`combined_score = 0.7 × similarity + 0.3 × min(fts_rank × 10, 1)` with a
zero lexical rank when no lexical query was supplied, clears the similarity
floor and satisfies the document-id/module filters; the selected rows
satisfy the owning-user filter and are ordered by combined score
descending, at most `match_count` of them; the lexical contribution never
exceeds 0.3; and every hybrid call the chat handler makes passes
`match_count = MAX_CHUNKS_TO_LLM + 3` and the 0.3 similarity threshold. -/
theorem match_documents_hybrid_spec (dist : DbChunk → ℚ) (tsM : DbChunk → Bool)
    (tsR : DbChunk → ℚ) (qt : String) (mc : Nat) (θ : ℚ)
    (fdoc fuser fmod : Option String) (db : List DbChunk) :
    (∀ m ∈ match_documents_hybrid dist tsM tsR qt mc θ fdoc fuser fmod db,
      ∃ s f, m.similarity = some s ∧ m.fts_rank = some f ∧
        m.combined_score = some (7 / 10 * s + 3 / 10 * min (f * 10) 1) ∧
        (hasFtsQuery qt = false → f = 0) ∧ θ ≤ s ∧
        (∀ d, fdoc = some d → m.document_id = d) ∧
        (∀ mo, fmod = some mo → m.module_name = some mo)) ∧
    (∀ r ∈ hybridSelected dist tsM tsR qt mc θ fdoc fuser fmod db,
      ∀ u, fuser = some u → r.uploaded_by = u) ∧
    (hybridSelected dist tsM tsR qt mc θ fdoc fuser fmod db).Sorted
      (fun a b => combScore dist tsM tsR (hasFtsQuery qt) b ≤
        combScore dist tsM tsR (hasFtsQuery qt) a) ∧
    (match_documents_hybrid dist tsM tsR qt mc θ fdoc fuser fmod db).length ≤
      mc ∧
    (∀ r, combScore dist tsM tsR (hasFtsQuery qt) r ≤
      7 / 10 * simScore dist r + 3 / 10) ∧
    (∀ (req : ChatReq) (env : ChatEnv) (args : HybridArgs),
      (chatHandler req env).2.hybridCall = some args →
      args.match_count = MAX_CHUNKS_TO_LLM + 3 ∧
      args.similarity_threshold = SIMILARITY_THRESHOLD) := by
  refine ⟨?_, ?_, ?_, ?_, ?_, ?_⟩
  · intro m hm
    unfold match_documents_hybrid at hm
    obtain ⟨r, hr, rfl⟩ := List.mem_map.mp hm
    have hk := hybridKeep_unpack
      (hybridSelected_keep dist tsM tsR qt mc θ fdoc fuser fmod db r hr)
    refine ⟨simScore dist r, ftsRankCol tsM tsR (hasFtsQuery qt) r, rfl, rfl,
      ?_, ?_, hk.2.2.2, hk.1, hk.2.2.1⟩
    · rw [combScore_eq_min]
    · intro hq
      unfold ftsRankCol
      rw [hq]
      simp
  · intro r hr u hu
    exact (hybridKeep_unpack
      (hybridSelected_keep dist tsM tsR qt mc θ fdoc fuser fmod db r hr)).2.1
      u hu
  · unfold hybridSelected
    have hs := List.sorted_insertionSort
      (fun a b => combScore dist tsM tsR (hasFtsQuery qt) b ≤
        combScore dist tsM tsR (hasFtsQuery qt) a)
      (db.filter (hybridKeep dist θ fdoc fuser fmod))
    exact hs.sublist (List.take_sublist _ _)
  · unfold match_documents_hybrid hybridSelected
    rw [List.length_map]
    exact List.length_take_le _ _
  · intro r
    unfold combScore
    have h1 := lexTerm_le_one tsM tsR (hasFtsQuery qt) r
    nlinarith [h1]
  · intro req env args h
    rcases chatHandler_hybridCall req env with hc | hc
    · rw [hc] at h
      cases h
    · rw [hc] at h
      obtain rfl := Option.some_inj.mp h
      exact ⟨rfl, rfl⟩

/-- Witness for C2: the single-chunk corpus, owned by `u`, selected without
a module filter; and the concrete hybrid call of the handler carries
`match_count = 8`. -/
theorem match_documents_hybrid_spec_witness :
    (DbChunk.mk "c9" "d9" "mito" 0 (some "Math") (some "bio.pdf")
        "u").uploaded_by = "u" ∧
    (match_documents_hybrid cexDist cexTsMatch cexTsRank "q" 8
        SIMILARITY_THRESHOLD none (some "u") none cexDb).length ≤ 8 ∧
    (hybridArgsOf wReq (mkEnv none (Except.ok []) (Except.ok []))
        (searchQueryOf wReq (mkEnv none (Except.ok [])
          (Except.ok [])))).match_count = MAX_CHUNKS_TO_LLM + 3 := by
  refine ⟨?_, ?_, ?_⟩
  · exact (match_documents_hybrid_spec cexDist cexTsMatch cexTsRank "q" 8
      SIMILARITY_THRESHOLD none (some "u") none cexDb).2.1
      (DbChunk.mk "c9" "d9" "mito" 0 (some "Math") (some "bio.pdf") "u")
      (by decide) "u" rfl
  · exact (match_documents_hybrid_spec cexDist cexTsMatch cexTsRank "q" 8
      SIMILARITY_THRESHOLD none (some "u") none cexDb).2.2.2.1
  · exact ((match_documents_hybrid_spec cexDist cexTsMatch cexTsRank "q" 8
      SIMILARITY_THRESHOLD none (some "u") none cexDb).2.2.2.2.2 wReq
      (mkEnv none (Except.ok []) (Except.ok []))
      (hybridArgsOf wReq (mkEnv none (Except.ok []) (Except.ok []))
        (searchQueryOf wReq (mkEnv none (Except.ok []) (Except.ok []))))
      (by decide)).1

-- ─── Claim theorems: usage meter timezone (C8) ───────────────

/-- C8: the code contradicts the claim (and its own comments).  At
122400 s (10:00 UTC on day 1) `checkRateLimit` reports the reset at
230400 s (day 2, 16:00 UTC) although the next SGT midnight is 144000 s
(day 1, 16:00 UTC) — the guard `if (getUTCHours() >= 16)` executes a no-op
`setUTCDate(getUTCDate())`.  And at 147600 s (20:00 UTC on day 1) the usage
window key is the UTC date (day 1) although the SGT calendar date is
already day 2. -/
theorem checkRateLimit_timezone_bug :
    (checkRateLimit (some 3) 122400).resetTime = 230400 ∧
    specNextResetInstant 122400 = 144000 ∧
    (checkRateLimit (some 3) 122400).resetTime ≠ specNextResetInstant 122400 ∧
    windowKey 147600 = 1 ∧ sgtDate 147600 = 2 ∧
    windowKey 147600 ≠ sgtDate 147600 := by
  decide

-- ─── Claim theorems: ingest validation (C9) ──────────────────

/-- C9, counterexample: a path that begins with the requesting user's
namespace but contains a traversal sequence is *accepted*; the handler
performs no `..`/absolute-marker check. -/
theorem ingest_traversal_cex :
    ingestValidate "u1" (some "u1/../u2/secret.pdf") (some "f.pdf") =
      IngestCheck.ok ∧
    containsTraversal "u1/../u2/secret.pdf" = true := by
  decide

/-- C9, amended: with both fields present, the ingest request is rejected
with access denied exactly when the caller-supplied path does not begin with
the requesting user's id namespace prefix, and accepted exactly when it
does — no traversal or absolute-marker check is performed (see the
counterexample). -/
theorem ingestValidate_spec (userId sp fn : String) (hsp : sp ≠ "")
    (hfn : fn ≠ "") :
    (ingestValidate userId (some sp) (some fn) = IngestCheck.accessDenied ↔
      ¬ (userId ++ "/").data <+: sp.data) ∧
    (ingestValidate userId (some sp) (some fn) = IngestCheck.ok ↔
      (userId ++ "/").data <+: sp.data) := by
  unfold ingestValidate
  dsimp only
  rw [if_neg (by simp [hsp, hfn])]
  by_cases hp : (userId ++ "/").data.isPrefixOf sp.data = true
  · rw [if_pos hp]
    have := List.isPrefixOf_iff_prefix.mp hp
    constructor
    · exact ⟨(fun h => nomatch h), fun h => absurd this h⟩
    · exact ⟨fun _ => this, fun _ => rfl⟩
  · rw [if_neg hp]
    have hnp : ¬ (userId ++ "/").data <+: sp.data := fun h =>
      hp (List.isPrefixOf_iff_prefix.mpr h)
    constructor
    · exact ⟨fun _ => hnp, fun _ => rfl⟩
    · exact ⟨(fun h => nomatch h), fun h => absurd h hnp⟩

/-- Witness for C9 amended: a well-namespaced path is accepted. -/
theorem ingestValidate_spec_witness :
    ingestValidate "u1" (some "u1/notes.pdf") (some "f.pdf") =
      IngestCheck.ok :=
  (ingestValidate_spec "u1" "u1/notes.pdf" "f.pdf" (by decide)
      (by decide)).2.mpr (by decide)

-- ─── Claim theorems: ingest of unchunkable text (C10) ────────

/-- C10: when the extracted text passes the 50-character gate but the
chunker produces no chunks, the detached phase makes no embedding call and
(provided the insert succeeds) still marks the document `ready` with
`chunk_count = 0`. -/
theorem ingest_ready_zero_chunks (text : List Char) (e : Bool)
    (hgate : passesContentGate text = true)
    (hchunks : splitIntoChunksW text = []) :
    detachedPhase (splitIntoChunksW text) e true =
      DetachedResult.mk 0 DocStatus.ready (some 0) := by
  rw [hchunks]
  unfold detachedPhase chunkBatches
  simp

/-- Witness for C10: 62 characters but 3 words — the gate passes, the
chunker yields nothing, and the document still becomes `ready` with zero
chunks and no embedding call. -/
theorem ingest_ready_zero_chunks_witness :
    detachedPhase (splitIntoChunksW c10Text) true true =
      DetachedResult.mk 0 DocStatus.ready (some 0) :=
  ingest_ready_zero_chunks c10Text true (by decide) (by decide)

end Study
